import Mathlib

/-!
Verification of the staged-rollout reconciliation engine of the
cluster-api-addon-provider-helm repository, as implemented in
controllers/helmchartproxy/helmchartproxy_controller.go.

The Go code is shallowly embedded: each controller function becomes a pure
Lean function from its inputs (the HelmChartProxy object, the freshly listed
Clusters and HelmReleaseProxies) to an outcome record collecting the status
fields and conditions it writes, the clusters it asks `reconcileForCluster`
to reconcile (in call order), and the controller-runtime result it returns.
A nil-pointer dereference in the Go code is modelled as the distinguished
outcome `panicked`; a returned Go error as `failure`.
-/

namespace CAAPH

/-- Tri-state status of a condition, mirroring corev1.ConditionStatus. -/
inductive CondStatus where
  | condTrue
  | condFalse
  | condUnknown
deriving DecidableEq

/-- Reasons attached to conditions by the controller.  Each constructor stands
for one of the reason constants referenced by the source; `noReason` stands for
a condition set without an explicit reason (as `conditions.MarkTrue` does), and
`aggregatedReason` for whatever reason the external `conditions.SetAggregate`
primitive computes. -/
inductive CondReason where
  | noReason
  | rolloutUndefinedReason
  | rolloutNotCompleteReason
  | specsUpdatingReason
  | aggregatedReason
  | clusterSelectionFailedReason
deriving DecidableEq

/-- A condition as exposed by the cluster-api condition primitives: tri-state
status plus a reason and a message. -/
structure Condition where
  status : CondStatus
  reason : CondReason
  message : String
deriving DecidableEq

/-- The HelmChartProxy conditions this controller reads and writes:
HelmReleaseProxySpecsUpToDateCondition, HelmReleaseProxiesReadyCondition and
HelmReleaseProxiesRolloutCompletedCondition. -/
structure HcpConditions where
  specsUpToDate : Option Condition
  releasesReady : Option Condition
  rolloutCompleted : Option Condition
deriving DecidableEq

/-- conditions.IsTrue: the condition exists and its status is True. -/
def isTrueCond : Option Condition → Bool
  | some c => match c.status with | .condTrue => true | _ => false
  | none => false

/-- conditions.IsFalse: the condition exists and its status is False. -/
def isFalseCond : Option Condition → Bool
  | some c => match c.status with | .condFalse => true | _ => false
  | none => false

/-- conditions.IsUnknown: the condition is Unknown or does not exist. -/
def isUnknownCond : Option Condition → Bool
  | some c => match c.status with | .condUnknown => true | _ => false
  | none => true

/-- A workload Cluster, identified by namespace and name (`namespace` is a
Lean keyword, so the field is named `ns`). -/
structure Cluster where
  ns : String
  name : String
deriving DecidableEq

/-- The corev1.ObjectReference from a HelmReleaseProxy spec to its target
cluster, restricted to the namespace and name fields the controller uses. -/
structure ClusterRef where
  ns : String
  name : String
deriving DecidableEq

/-- A HelmReleaseProxy, restricted to the fields the embedded functions read:
its name, its Spec.ClusterRef, its Ready condition (read through
conditions.IsTrue), and its generation bookkeeping. -/
structure HelmReleaseProxy where
  name : String
  clusterRef : ClusterRef
  readyCondition : Option Condition
  generation : Int
  observedGeneration : Int
deriving DecidableEq

/-- intstr.IntOrString restricted to its two well-formed shapes: an absolute
integer, or a string of the form "p%" already parsed to the integer p.
Malformed strings (a ScalingComputationError) are outside this model; every
claim exercises well-formed values. -/
inductive IntOrString where
  | intVal (n : Int)
  | percentVal (p : Int)
deriving DecidableEq

/-- intstr.GetScaledValueFromIntOrPercent with roundUp = true, as called by the
source: a nil pointer is an error, an absolute value resolves to itself, and a
percentage p resolves to the ceiling of p * total / 100 (the Go code computes
int(math.Ceil(float64(p) * float64(total) / 100)), written here as the exact
integer ceiling (p * total + 99) / 100 in euclidean division). -/
def getScaledValueFromIntOrPercent : Option IntOrString → Int → Except String Int
  | none, _ => .error "nil value for IntOrString"
  | some (.intVal n), _ => .ok n
  | some (.percentVal p), total => .ok ((p * total + 99) / 100)

/-- The nil-guarded resolution pattern used for StepIncrement, StepLimit and
StepInit in the True branch of rolloutReconcile: a nil option contributes 0
without calling the resolver. -/
def scaledOrZero (v : Option IntOrString) (total : Int) : Except String Int :=
  match v with
  | none => .ok 0
  | some x => getScaledValueFromIntOrPercent (some x) total

/-- RolloutOptions: the per-phase rollout policy. -/
structure RolloutOptions where
  stepInit : Option IntOrString
  stepIncrement : Option IntOrString
  stepLimit : Option IntOrString
deriving DecidableEq

/-- Spec.Rollout: the optional install and upgrade policies. -/
structure Rollout where
  install : Option RolloutOptions
  upgrade : Option RolloutOptions
deriving DecidableEq

/-- Status.Rollout: the persisted rollout progress (both fields are pointers
in the source, hence Option). -/
structure RolloutStatus where
  count : Option Int
  stepSize : Option Int
deriving DecidableEq

/-- The HelmChartProxy spec fields the embedded functions read. -/
structure HelmChartProxySpec where
  reconcileStrategy : String
  rollout : Option Rollout
deriving DecidableEq

/-- The HelmChartProxy status fields the embedded functions read and write. -/
structure HelmChartProxyStatus where
  rollout : Option RolloutStatus
  conditions : HcpConditions
deriving DecidableEq

/-- The HelmChartProxy object, restricted to what the embedded functions use. -/
structure HelmChartProxy where
  generation : Int
  spec : HelmChartProxySpec
  status : HelmChartProxyStatus
deriving DecidableEq

/-- The install vs upgrade rolling reconcile type event. -/
inductive InstallOrUpgrade where
  | install
  | upgrade
deriving DecidableEq

/-- Message constant hrpRolloutCompletedMsg from the source. -/
def hrpRolloutCompletedMsg : String := "HelmChartProxy does not use rollout"

/-- getNamespacedNameStringFor: types.NamespacedName.String() is
namespace + "/" + name. -/
def getNamespacedNameStringFor (ns name : String) : String :=
  ns ++ "/" ++ name

/-- The namespaced-name key of a cluster. -/
def clusterNn (c : Cluster) : String :=
  getNamespacedNameStringFor c.ns c.name

/-- The namespaced-name key of the cluster a HelmReleaseProxy points at. -/
def hrpClusterNn (h : HelmReleaseProxy) : String :=
  getNamespacedNameStringFor h.clusterRef.ns h.clusterRef.name

/-- helmReleaseProxyRolloutMeta: per-candidate rollout metadata gathered fresh
on each pass. -/
structure HelmReleaseProxyRolloutMeta where
  cluster : Cluster
  hrpExists : Bool
  hrpReady : Bool
deriving DecidableEq

/-- One assignment clusterNnRolloutMeta[nn] = {cluster: c} of the Go map
construction: overwrite the entry if the key is present, append it otherwise. -/
def insertClusterMeta (acc : List (String × HelmReleaseProxyRolloutMeta)) (c : Cluster) :
    List (String × HelmReleaseProxyRolloutMeta) :=
  let nn := clusterNn c
  if acc.any (fun p => p.1 == nn) then
    acc.map (fun p => if p.1 == nn then (p.1, ⟨c, false, false⟩) else p)
  else
    acc ++ [(nn, ⟨c, false, false⟩)]

/-- The first loop of the metadata gathering: build the map keyed by cluster
namespaced name, in iteration order. -/
def clusterNnRolloutMetaInit (acc : List (String × HelmReleaseProxyRolloutMeta)) :
    List Cluster → List (String × HelmReleaseProxyRolloutMeta)
  | [] => acc
  | c :: rest => clusterNnRolloutMetaInit (insertClusterMeta acc c) rest

/-- One iteration of the second loop: look the HelmReleaseProxy clusterRef key
up in the map and set hrpExists and hrpReady on the entry.  When the key is
absent the Go code reads a nil pointer (meta := clusterNnRolloutMeta[nn];
meta.hrpExists = true) and the pass panics, modelled as `none`. -/
def applyHelmReleaseProxyMeta (acc : List (String × HelmReleaseProxyRolloutMeta))
    (h : HelmReleaseProxy) : Option (List (String × HelmReleaseProxyRolloutMeta)) :=
  let nn := hrpClusterNn h
  if acc.any (fun p => p.1 == nn) then
    some (acc.map (fun p =>
      if p.1 == nn then
        (p.1, { p.2 with hrpExists := true, hrpReady := isTrueCond h.readyCondition })
      else p))
  else
    none

/-- The second loop of the metadata gathering, over all HelmReleaseProxies. -/
def applyHelmReleaseProxies (acc : List (String × HelmReleaseProxyRolloutMeta)) :
    List HelmReleaseProxy → Option (List (String × HelmReleaseProxyRolloutMeta))
  | [] => some acc
  | h :: rest =>
    match applyHelmReleaseProxyMeta acc h with
    | none => none
    | some acc2 => applyHelmReleaseProxies acc2 rest

/-- The whole metadata-gathering step of rolloutReconcile (lines 336-351). -/
def gatherRolloutMeta (clusters : List Cluster) (helmReleaseProxies : List HelmReleaseProxy) :
    Option (List (String × HelmReleaseProxyRolloutMeta)) :=
  applyHelmReleaseProxies (clusterNnRolloutMetaInit [] clusters) helmReleaseProxies

/-- Lexicographic order on character lists, mirroring the byte-wise Go string
comparison used by the sort callback (the namespaced names involved are ASCII,
where the two orders agree). -/
def charListLt : List Char → List Char → Bool
  | [], [] => false
  | [], _ :: _ => true
  | _ :: _, [] => false
  | a :: as, b :: bs => if a < b then true else if b < a then false else charListLt as bs

/-- Strict string order by character list. -/
def stringLt (a b : String) : Bool := charListLt a.data b.data

/-- Ordered insertion by namespaced-name key.  The keys produced by the map
construction are pairwise distinct, so the order of equal keys never matters
and this insertion sort computes the same list as the stable sort in the
source. -/
def insertMetaSorted (x : String × HelmReleaseProxyRolloutMeta) :
    List (String × HelmReleaseProxyRolloutMeta) → List (String × HelmReleaseProxyRolloutMeta)
  | [] => [x]
  | y :: ys => if stringLt x.1 y.1 then x :: y :: ys else y :: insertMetaSorted x ys

/-- Sort the flattened map by cluster namespaced name (lines 353-377). -/
def sortRolloutMeta :
    List (String × HelmReleaseProxyRolloutMeta) → List (String × HelmReleaseProxyRolloutMeta)
  | [] => []
  | x :: xs => insertMetaSorted x (sortRolloutMeta xs)

/-- rolloutMetaSorted: the sorted metadata with the keys dropped. -/
def rolloutMetaSortedOf (metaMap : List (String × HelmReleaseProxyRolloutMeta)) :
    List HelmReleaseProxyRolloutMeta :=
  (sortRolloutMeta metaMap).map (fun p => p.2)

/-- The rolloutCount / oldCount read pattern: ptr.Deref of Status.Rollout.Count
with default 0, guarded by Status.Rollout being non-nil. -/
def rolloutCountOf (hcp : HelmChartProxy) : Int :=
  match hcp.status.rollout with
  | some rs => rs.count.getD 0
  | none => 0

/-- The oldStepSize read pattern: ptr.Deref of Status.Rollout.StepSize with
default 0, guarded by Status.Rollout being non-nil. -/
def oldStepSizeOf (hcp : HelmChartProxy) : Int :=
  match hcp.status.rollout with
  | some rs => rs.stepSize.getD 0
  | none => 0

/-- The new step size of the True branch: oldStepSize + stepIncrement, clamped
to stepLimit only when stepLimit > stepInit and the sum exceeds stepLimit. -/
def computeNewStepSize (oldStepSize stepIncrement stepLimit stepInit : Int) : Int :=
  let stepSize := oldStepSize + stepIncrement
  if stepLimit > stepInit ∧ stepSize > stepLimit then stepLimit else stepSize

/-- The walk of the Unknown branch (lines 403-415): reconcile candidates in
sorted order until count reaches stepSize, returning the clusters passed to
reconcileForCluster in call order. -/
def rolloutUnknownWalk (stepSize : Int) :
    List HelmReleaseProxyRolloutMeta → Int → List Cluster
  | [], _ => []
  | m :: rest, count =>
    if count ≥ stepSize then []
    else m.cluster :: rolloutUnknownWalk stepSize rest (count + 1)

/-- The walk of the True branch (lines 489-511): abort on the first candidate
whose release exists but is not Ready, stop once count (the number created this
pass) reaches stepSize, skip candidates whose release exists, create for the
rest. -/
def rolloutTrueWalk (stepSize : Int) :
    List HelmReleaseProxyRolloutMeta → Int → List Cluster
  | [], _ => []
  | m :: rest, count =>
    if m.hrpExists && !m.hrpReady then []
    else if count ≥ stepSize then []
    else if m.hrpExists then rolloutTrueWalk stepSize rest count
    else m.cluster :: rolloutTrueWalk stepSize rest (count + 1)

/-- The controller-runtime result of a pass: a successful return with or
without Requeue, an error return, or a runtime panic. -/
inductive ReconcileOutcomeKind where
  | success (requeue : Bool)
  | failure (msg : String)
  | panicked
deriving DecidableEq

/-- Everything a rolloutReconcile (or reconcileNormal) call writes or returns:
the Status.Rollout it leaves on the object, the conditions it leaves, the
clusters handed to reconcileForCluster in call order, and the result. -/
structure PassOutcome where
  rolloutStatus : Option RolloutStatus
  conditions : HcpConditions
  touched : List Cluster
  result : ReconcileOutcomeKind
deriving DecidableEq

/-- conditions.MarkTrue on HelmReleaseProxiesRolloutCompletedCondition. -/
def markRolloutCompletedTrue (c : HcpConditions) : HcpConditions :=
  { c with rolloutCompleted := some ⟨.condTrue, .noReason, ""⟩ }

/-- conditions.MarkTrueWithNegativePolarity on the rollout-completed condition
with the RolloutUndefined reason and the hrpRolloutCompletedMsg message. -/
def markRolloutCompletedUndefined (c : HcpConditions) : HcpConditions :=
  { c with rolloutCompleted := some ⟨.condTrue, .rolloutUndefinedReason, hrpRolloutCompletedMsg⟩ }

/-- conditions.MarkFalse on the rollout-completed condition with the
RolloutNotComplete reason and the formatted remaining count. -/
def markRolloutCompletedNotComplete (c : HcpConditions) (remaining : Int) : HcpConditions :=
  { c with rolloutCompleted :=
      (some ⟨.condFalse, .rolloutNotCompleteReason,
        toString remaining ++ " Helm release proxies not yet rolled out"⟩) }

/-- The Unknown branch of rolloutReconcile (lines 379-420), entered when
HelmReleaseProxiesReadyCondition is Unknown.  `conds` already carries the
rollout-not-complete mark set before the branch. -/
def rolloutUnknownBranch (hcp : HelmChartProxy) (conds : HcpConditions)
    (clusters : List Cluster) (helmReleaseProxies : List HelmReleaseProxy)
    (rolloutMetaSorted : List HelmReleaseProxyRolloutMeta) (opts : RolloutOptions) :
    PassOutcome :=
  if helmReleaseProxies.length ≠ 0 then
    { rolloutStatus := hcp.status.rollout, conditions := conds,
      touched := [], result := .success true }
  else
    match getScaledValueFromIntOrPercent opts.stepInit (clusters.length : Int) with
    | .error e =>
      { rolloutStatus := hcp.status.rollout, conditions := conds,
        touched := [], result := .failure e }
    | .ok stepSize =>
      -- from here every return runs the deferred status update
      if stepSize = (helmReleaseProxies.length : Int) then
        { rolloutStatus := some ⟨some 0, some stepSize⟩, conditions := conds,
          touched := [], result := .success true }
      else
        let touched := rolloutUnknownWalk stepSize rolloutMetaSorted 0
        { rolloutStatus := some ⟨some (touched.length : Int), some stepSize⟩,
          conditions := conds, touched := touched, result := .success true }

/-- The False branch of rolloutReconcile (lines 422-438): reconcile exactly the
candidates whose release already exists, in sorted order, and requeue. -/
def rolloutFalseBranch (hcp : HelmChartProxy) (conds : HcpConditions)
    (rolloutMetaSorted : List HelmReleaseProxyRolloutMeta) : PassOutcome :=
  { rolloutStatus := hcp.status.rollout, conditions := conds,
    touched := (rolloutMetaSorted.filter (fun m => m.hrpExists)).map (fun m => m.cluster),
    result := .success true }

/-- The True branch of rolloutReconcile (lines 440-516): resolve the step
values, compute the capped new step size, walk the candidates, and run the
deferred status update Count = oldCount + created, StepSize = stepSize on every
exit of the walk. -/
def rolloutTrueBranch (hcp : HelmChartProxy) (conds : HcpConditions)
    (clusters : List Cluster) (rolloutMetaSorted : List HelmReleaseProxyRolloutMeta)
    (opts : RolloutOptions) : PassOutcome :=
  match scaledOrZero opts.stepIncrement (clusters.length : Int) with
  | .error e =>
    { rolloutStatus := hcp.status.rollout, conditions := conds,
      touched := [], result := .failure e }
  | .ok stepIncrement =>
    match scaledOrZero opts.stepLimit (clusters.length : Int) with
    | .error e =>
      { rolloutStatus := hcp.status.rollout, conditions := conds,
        touched := [], result := .failure e }
    | .ok stepLimit =>
      match scaledOrZero opts.stepInit (clusters.length : Int) with
      | .error e =>
        { rolloutStatus := hcp.status.rollout, conditions := conds,
          touched := [], result := .failure e }
      | .ok stepInit =>
        let stepSize := computeNewStepSize (oldStepSizeOf hcp) stepIncrement stepLimit stepInit
        let touched := rolloutTrueWalk stepSize rolloutMetaSorted 0
        { rolloutStatus := some ⟨some (rolloutCountOf hcp + (touched.length : Int)), some stepSize⟩,
          conditions := conds, touched := touched, result := .success true }

/-- The switch on installOrUpgrade selecting the rollout options of the
active phase (lines 300-305). -/
def phaseOptions (rollout : Rollout) : InstallOrUpgrade → Option RolloutOptions
  | .install => rollout.install
  | .upgrade => rollout.upgrade

/-- rolloutReconcile (lines 296-516).  Reading Spec.Rollout.Install on a nil
Spec.Rollout would dereference a nil pointer, hence the panicked outcome in the
none case; the nil-rolloutOptions guard is the defensive no-op return of line
309-311. -/
def rolloutReconcile (hcp : HelmChartProxy) (clusters : List Cluster)
    (helmReleaseProxies : List HelmReleaseProxy) (phase : InstallOrUpgrade) : PassOutcome :=
  match hcp.spec.rollout with
  | none =>
    { rolloutStatus := hcp.status.rollout, conditions := hcp.status.conditions,
      touched := [], result := .panicked }
  | some rollout =>
    match phaseOptions rollout phase with
    | none =>
      { rolloutStatus := hcp.status.rollout, conditions := hcp.status.conditions,
        touched := [], result := .success false }
    | some opts =>
      if (clusters.length : Int) = rolloutCountOf hcp then
        { rolloutStatus := hcp.status.rollout,
          conditions := markRolloutCompletedTrue hcp.status.conditions,
          touched := [], result := .success false }
      else
        let conds := markRolloutCompletedNotComplete hcp.status.conditions
          ((clusters.length : Int) - rolloutCountOf hcp)
        match gatherRolloutMeta clusters helmReleaseProxies with
        | none =>
          { rolloutStatus := hcp.status.rollout, conditions := conds,
            touched := [], result := .panicked }
        | some metaMap =>
          let rolloutMetaSorted := rolloutMetaSortedOf metaMap
          if isUnknownCond hcp.status.conditions.releasesReady then
            rolloutUnknownBranch hcp conds clusters helmReleaseProxies rolloutMetaSorted opts
          else if isFalseCond hcp.status.conditions.releasesReady then
            rolloutFalseBranch hcp conds rolloutMetaSorted
          else
            rolloutTrueBranch hcp conds clusters rolloutMetaSorted opts

/-- The NormalOutcome of a reconcileNormal call: which HelmReleaseProxies the
orphan step deletes, the rollout pass outcome (or fan-out outcome), and which
staged-rollout phase was used, none meaning the unconditional fan-out or the
no-rollout path. -/
structure NormalOutcome where
  orphansDeleted : List HelmReleaseProxy
  pass : PassOutcome
  phase : Option InstallOrUpgrade
deriving DecidableEq

/-- Modelled from the spec: `deleteOrphanedHelmReleaseProxies` is code of this
repository outside the provided source file; per the specification it deletes
every existing HelmReleaseProxy whose target cluster is not in the current
candidate set.  Only the selection of orphans matters to the claims. -/
def orphanedHelmReleaseProxies (clusters : List Cluster)
    (helmReleaseProxies : List HelmReleaseProxy) : List HelmReleaseProxy :=
  helmReleaseProxies.filter
    (fun h => !(clusters.any (fun c => clusterNn c == hrpClusterNn h)))

/-- The unconditional full fan-out taken when no rollout policy applies:
mark the rollout-completed condition True with the RolloutUndefined reason and
reconcile every candidate cluster this pass. -/
def fanOutPass (hcp : HelmChartProxy) (clusters : List Cluster) : PassOutcome :=
  { rolloutStatus := hcp.status.rollout,
    conditions := markRolloutCompletedUndefined hcp.status.conditions,
    touched := clusters, result := .success false }

/-- reconcileNormal (lines 214-291): delete orphans unless the strategy is
InstallOnce, then either fan out (Spec.Rollout nil; or generation 1 with
Spec.Rollout.Install nil; or generation above 1 with Spec.Rollout.Upgrade nil)
or run the staged rollout in the selected phase. -/
def reconcileNormal (hcp : HelmChartProxy) (clusters : List Cluster)
    (helmReleaseProxies : List HelmReleaseProxy) : NormalOutcome :=
  let orphans :=
    if hcp.spec.reconcileStrategy ≠ "InstallOnce" then
      orphanedHelmReleaseProxies clusters helmReleaseProxies
    else []
  match hcp.spec.rollout with
  | none => ⟨orphans, fanOutPass hcp clusters, none⟩
  | some rollout =>
    if hcp.generation = 1 then
      match rollout.install with
      | none => ⟨orphans, fanOutPass hcp clusters, none⟩
      | some _ => ⟨orphans, rolloutReconcile hcp clusters helmReleaseProxies .install, some .install⟩
    else
      match rollout.upgrade with
      | none => ⟨orphans, fanOutPass hcp clusters, none⟩
      | some _ => ⟨orphans, rolloutReconcile hcp clusters helmReleaseProxies .upgrade, some .upgrade⟩

/-- Modelled from the spec: the condition primitive library is an external
collaborator; `conditions.SetAggregate` folds the Ready conditions of the given
children into one aggregate condition that is True only if all of them are
Ready. -/
def setAggregate (children : List HelmReleaseProxy) : Condition :=
  if children.all (fun h => isTrueCond h.readyCondition) then
    ⟨.condTrue, .aggregatedReason, ""⟩
  else
    ⟨.condFalse, .aggregatedReason, ""⟩

/-- The message of the MarkFalse in the generation-lag branch of the readiness
aggregation (the source quotes the release name, written here without the
surrounding quote characters). -/
def specsUpdatingMsg (name : String) : String :=
  "Helm release proxy " ++ name ++ " is not updated yet"

/-- aggregateHelmReleaseProxyReadyCondition (lines 584-618), as a function of
the freshly listed releases: an empty list marks the aggregate Ready condition
vacuously True; otherwise the first release whose ObservedGeneration lags its
generation marks HelmReleaseProxySpecsUpToDateCondition False with the
SpecsUpdating reason and returns; otherwise the aggregate Ready condition is
folded from every release. -/
def aggregateHelmReleaseProxyReadyCondition (conds : HcpConditions)
    (releaseList : List HelmReleaseProxy) : HcpConditions :=
  if releaseList.length = 0 then
    { conds with releasesReady := some ⟨.condTrue, .noReason, ""⟩ }
  else
    match releaseList.find? (fun h => h.generation != h.observedGeneration) with
    | some h =>
      { conds with specsUpToDate :=
          (some ⟨.condFalse, .specsUpdatingReason, specsUpdatingMsg h.name⟩) }
    | none =>
      { conds with releasesReady := some (setAggregate releaseList) }

/-- Result of the fresh Get issued right after each delete in reconcileDelete. -/
inductive StoreGetOutcome where
  | found
  | notFound
  | getFailure (msg : String)
deriving DecidableEq

/-- Result of the delete issued for a release in reconcileDelete. -/
inductive StoreDeleteOutcome where
  | deleted
  | deleteFailure (msg : String)
deriving DecidableEq

/-- A remote-store operation issued by the deletion flow, recorded in order. -/
inductive StoreOp where
  | deleteOp (name : String)
  | getOp (name : String)
deriving DecidableEq

/-- Everything a reconcileDelete call produces: the conditions it leaves, the
releases still pending (the getters list), the store operations it issued in
order, and the result it returns. -/
structure DeleteOutcome where
  conditions : HcpConditions
  pendingReleases : List HelmReleaseProxy
  ops : List StoreOp
  result : ReconcileOutcomeKind
deriving DecidableEq

/-- The loop of reconcileDelete (lines 524-544): delete each release, then
fetch it again; NotFound confirms removal, a release still found joins the
getters, and any store error short-circuits the loop.  Returns the getters,
the issued operations, and the first error. -/
def reconcileDeleteLoop (del : HelmReleaseProxy → StoreDeleteOutcome)
    (get : HelmReleaseProxy → StoreGetOutcome) :
    List HelmReleaseProxy → (List HelmReleaseProxy × List StoreOp × Option String)
  | [] => ([], [], none)
  | r :: rest =>
    match del r with
    | .deleteFailure e =>
      ([], [.deleteOp r.name], some ("failed to delete release " ++ r.name ++ ": " ++ e))
    | .deleted =>
      match get r with
      | .getFailure e =>
        ([], [.deleteOp r.name, .getOp r.name],
          some ("failed to get HelmReleaseProxy " ++ r.name ++ ": " ++ e))
      | .notFound =>
        let (g, ops, err) := reconcileDeleteLoop del get rest
        (g, .deleteOp r.name :: .getOp r.name :: ops, err)
      | .found =>
        let (g, ops, err) := reconcileDeleteLoop del get rest
        (r :: g, .deleteOp r.name :: .getOp r.name :: ops, err)

/-- reconcileDelete (lines 519-553): run the deletion loop; if any release is
still pending, recompute the aggregate Ready condition over the pending set and
requeue, otherwise return a zero result. -/
def reconcileDelete (conds : HcpConditions) (releases : List HelmReleaseProxy)
    (del : HelmReleaseProxy → StoreDeleteOutcome)
    (get : HelmReleaseProxy → StoreGetOutcome) : DeleteOutcome :=
  let r := reconcileDeleteLoop del get releases
  match r.2.2 with
  | some e => ⟨conds, r.1, r.2.1, .failure e⟩
  | none =>
    if r.1.length ≠ 0 then
      ⟨{ conds with releasesReady := some (setAggregate r.1) }, r.1, r.2.1, .success true⟩
    else
      ⟨conds, r.1, r.2.1, .success false⟩

/-- Outcome of the deletion part of Reconcile (lines 174-194): the conditions,
the pending releases, the issued store operations, whether the finalizer is
still present afterwards, the requeue flag and error actually returned to the
scheduler. -/
structure DeleteFlowOutcome where
  conditions : HcpConditions
  pendingReleases : List HelmReleaseProxy
  ops : List StoreOp
  finalizerPresent : Bool
  requeue : Bool
  errMsg : Option String
deriving DecidableEq

/-- The deletion path of Reconcile (lines 174-194): when the finalizer is
present, run reconcileDelete; on error, or when its result is non-zero, the
code returns ctrl.Result{} together with err (so a Requeue requested by
reconcileDelete is dropped) and keeps the finalizer; otherwise it removes the
finalizer and returns a zero result. -/
def reconcileDeleteFlow (conds : HcpConditions) (finalizerPresent : Bool)
    (releases : List HelmReleaseProxy)
    (del : HelmReleaseProxy → StoreDeleteOutcome)
    (get : HelmReleaseProxy → StoreGetOutcome) : DeleteFlowOutcome :=
  if finalizerPresent then
    let o := reconcileDelete conds releases del get
    match o.result with
    | .failure e => ⟨o.conditions, o.pendingReleases, o.ops, true, false, some e⟩
    | .success true => ⟨o.conditions, o.pendingReleases, o.ops, true, false, none⟩
    | _ => ⟨o.conditions, o.pendingReleases, o.ops, false, false, none⟩
  else
    ⟨conds, [], [], false, false, none⟩

/-- A cluster in the fixed namespace used by the concrete instances below. -/
def mkCluster (name : String) : Cluster := ⟨"default", name⟩

/-- A Ready condition with status True, as the release agent would report it. -/
def readyTrueCondition : Option Condition := some ⟨.condTrue, .aggregatedReason, ""⟩

/-- A Ready condition with status False. -/
def readyFalseCondition : Option Condition := some ⟨.condFalse, .aggregatedReason, ""⟩

/-- A HelmReleaseProxy for the named cluster with the given readiness and its
generation already observed. -/
def mkHelmReleaseProxy (clusterName : String) (ready : Bool) : HelmReleaseProxy :=
  ⟨"hrp-" ++ clusterName, ⟨"default", clusterName⟩,
    if ready then readyTrueCondition else readyFalseCondition, 1, 1⟩

/-- Ten candidate clusters, already in sorted namespaced-name order. -/
def clustersTen : List Cluster :=
  [mkCluster "c00", mkCluster "c01", mkCluster "c02", mkCluster "c03", mkCluster "c04",
   mkCluster "c05", mkCluster "c06", mkCluster "c07", mkCluster "c08", mkCluster "c09"]

/-- C1 instance: the two existing Ready releases of the first batch. -/
def hrpsC1 : List HelmReleaseProxy :=
  [mkHelmReleaseProxy "c00" true, mkHelmReleaseProxy "c01" true]

/-- C1 instance: Install policy StepInit 20 percent, StepIncrement 20 percent,
StepLimit 50 percent. -/
def installOptionsC1 : RolloutOptions :=
  ⟨some (.percentVal 20), some (.percentVal 20), some (.percentVal 50)⟩

/-- C1 instance: HelmChartProxy with persisted Count 2, StepSize 2 and the
aggregate Ready condition True. -/
def hcpC1 : HelmChartProxy :=
  { generation := 1,
    spec := { reconcileStrategy := "Normal", rollout := some ⟨some installOptionsC1, none⟩ },
    status := { rollout := some ⟨some 2, some 2⟩,
                conditions := ⟨none, readyTrueCondition, none⟩ } }

/-- C1 instance: the gathered rollout metadata of the instance. -/
def metaMapC1 : List (String × HelmReleaseProxyRolloutMeta) :=
  (gatherRolloutMeta clustersTen hrpsC1).getD []

/-- C2 instance: a release whose ObservedGeneration lags its generation. -/
def hrpLagC2 : HelmReleaseProxy := ⟨"hrp-lag", ⟨"default", "a"⟩, readyTrueCondition, 2, 1⟩

/-- C2 instance: conditions entering the aggregation with the aggregate Ready
condition currently True. -/
def condsC2 : HcpConditions := ⟨none, readyTrueCondition, none⟩

/-- C3 instance: a release whose ClusterRef matches no candidate cluster. -/
def orphanHrpC3 : HelmReleaseProxy := mkHelmReleaseProxy "zz" true

/-- C3 counterexample instance: persisted Count equals the candidate count, so
the pass takes the completed branch before gathering metadata. -/
def hcpC3ce : HelmChartProxy :=
  { generation := 1,
    spec := { reconcileStrategy := "Normal",
              rollout := some ⟨some ⟨some (.intVal 1), none, none⟩, none⟩ },
    status := { rollout := some ⟨some 1, some 1⟩, conditions := ⟨none, none, none⟩ } }

/-- C3 witness instance: same object with Count 0, so the pass reaches the
metadata-gathering step. -/
def hcpC3w : HelmChartProxy :=
  { hcpC3ce with status := { rollout := some ⟨some 0, some 1⟩, conditions := ⟨none, none, none⟩ } }

/-- C4 instance: first generation, Spec.Rollout.Install nil but
Spec.Rollout.Upgrade set. -/
def hcpC4 : HelmChartProxy :=
  { generation := 1,
    spec := { reconcileStrategy := "Normal",
              rollout := some ⟨none, some ⟨some (.intVal 1), none, none⟩⟩ },
    status := { rollout := none, conditions := ⟨none, none, none⟩ } }

/-- C4 instance: two candidate clusters. -/
def clustersC4 : List Cluster := [mkCluster "a", mkCluster "b"]

/-- C5 witness instance: Install policy StepInit 20 percent, StepIncrement 30
percent, StepLimit 50 percent over ten clusters, so the cap binds (4 + 3 > 5,
5 > 2). -/
def installOptionsC5 : RolloutOptions :=
  ⟨some (.percentVal 20), some (.percentVal 30), some (.percentVal 50)⟩

/-- C5 witness instance: persisted Count 2, StepSize 4, aggregate Ready True. -/
def hcpC5 : HelmChartProxy :=
  { generation := 1,
    spec := { reconcileStrategy := "Normal", rollout := some ⟨some installOptionsC5, none⟩ },
    status := { rollout := some ⟨some 2, some 4⟩,
                conditions := ⟨none, readyTrueCondition, none⟩ } }

/-- C5 witness instance: gathered metadata (no releases exist). -/
def metaMapC5 : List (String × HelmReleaseProxyRolloutMeta) :=
  (gatherRolloutMeta clustersTen []).getD []

/-- C6 instance: two candidate clusters. -/
def clustersC6 : List Cluster := [mkCluster "a", mkCluster "b"]

/-- C6 instance: cluster b already has a release that is not Ready. -/
def hrpsC6 : List HelmReleaseProxy := [mkHelmReleaseProxy "b" false]

/-- C6 instance: persisted Count 1, StepSize 1, StepIncrement 1, aggregate
Ready condition (stale) True. -/
def hcpC6 : HelmChartProxy :=
  { generation := 1,
    spec := { reconcileStrategy := "Normal",
              rollout := some ⟨some ⟨none, some (.intVal 1), none⟩, none⟩ },
    status := { rollout := some ⟨some 1, some 1⟩,
                conditions := ⟨none, readyTrueCondition, none⟩ } }

/-- C6 instance: gathered metadata of the instance. -/
def metaMapC6 : List (String × HelmReleaseProxyRolloutMeta) :=
  (gatherRolloutMeta clustersC6 hrpsC6).getD []

/-- C6 instance: the sorted candidates before the aborting one. -/
def preC6 : List HelmReleaseProxyRolloutMeta := [⟨mkCluster "a", false, false⟩]

/-- C6 instance: the aborting candidate: release exists, not Ready. -/
def abortMetaC6 : HelmReleaseProxyRolloutMeta := ⟨mkCluster "b", true, false⟩

/-- C7 instance: StepInit 0 with no existing releases and no persisted rollout
state. -/
def hcpC7 : HelmChartProxy :=
  { generation := 1,
    spec := { reconcileStrategy := "Normal",
              rollout := some ⟨some ⟨some (.intVal 0), none, none⟩, none⟩ },
    status := { rollout := none, conditions := ⟨none, none, none⟩ } }

/-- C7 instance: one candidate cluster. -/
def clustersC7 : List Cluster := [mkCluster "a"]

/-- C8 witness instance: cluster b has a release (not Ready), aggregate Ready
condition False. -/
def clustersC8 : List Cluster := [mkCluster "a", mkCluster "b"]

/-- C8 witness instance: the one existing release. -/
def hrpsC8 : List HelmReleaseProxy := [mkHelmReleaseProxy "b" false]

/-- C8 witness instance: aggregate Ready condition False. -/
def hcpC8 : HelmChartProxy :=
  { generation := 1,
    spec := { reconcileStrategy := "Normal",
              rollout := some ⟨some ⟨some (.intVal 1), none, none⟩, none⟩ },
    status := { rollout := some ⟨some 1, some 1⟩,
                conditions := ⟨none, readyFalseCondition, none⟩ } }

/-- C8 witness instance: gathered metadata of the instance. -/
def metaMapC8 : List (String × HelmReleaseProxyRolloutMeta) :=
  (gatherRolloutMeta clustersC8 hrpsC8).getD []

/-- C9 instances: two releases owned by the deployment. -/
def hrpR1C9 : HelmReleaseProxy := mkHelmReleaseProxy "a" true

/-- C9 instances: the second release. -/
def hrpR2C9 : HelmReleaseProxy := mkHelmReleaseProxy "b" true

/-- C9 instances: conditions entering the deletion flow. -/
def condsC9 : HcpConditions := ⟨none, none, none⟩

/-- C9 instances: a store in which every delete succeeds. -/
def delOkC9 : HelmReleaseProxy → StoreDeleteOutcome := fun _ => .deleted

/-- C9 instances: a store in which every fresh get still finds the release. -/
def getFoundC9 : HelmReleaseProxy → StoreGetOutcome := fun _ => .found

/-- C9 instances: a store in which the first release is still found and the
second is already gone. -/
def getMixedC9 : HelmReleaseProxy → StoreGetOutcome :=
  fun r => if r.name = "hrp-a" then .found else .notFound

/-- C10 instance: StepInit 20 percent, no releases yet, no persisted rollout
state, aggregate Ready condition absent (hence Unknown). -/
def hcpC10 : HelmChartProxy :=
  { generation := 1,
    spec := { reconcileStrategy := "Normal",
              rollout := some ⟨some ⟨some (.percentVal 20), none, none⟩, none⟩ },
    status := { rollout := none, conditions := ⟨none, none, none⟩ } }

/-! Helper lemmas shared by the claim theorems. -/

theorem isUnknownCond_eq_false_of_isTrue {c : Option Condition}
    (h : isTrueCond c = true) : isUnknownCond c = false := by
  cases c with
  | none => simp [isTrueCond] at h
  | some v =>
    cases hv : v.status <;> simp [isTrueCond, isUnknownCond, hv] at h ⊢

theorem isFalseCond_eq_false_of_isTrue {c : Option Condition}
    (h : isTrueCond c = true) : isFalseCond c = false := by
  cases c with
  | none => simp [isTrueCond] at h
  | some v =>
    cases hv : v.status <;> simp [isTrueCond, isFalseCond, hv] at h ⊢

theorem isUnknownCond_eq_false_of_isFalse {c : Option Condition}
    (h : isFalseCond c = true) : isUnknownCond c = false := by
  cases c with
  | none => simp [isFalseCond] at h
  | some v =>
    cases hv : v.status <;> simp [isFalseCond, isUnknownCond, hv] at h ⊢

theorem ceil_div_hundred (a : Int) : ⌈((a : ℚ)) / 100⌉ = (a + 99) / 100 := by
  refine Int.ceil_eq_iff.mpr ⟨?_, ?_⟩
  · rw [lt_div_iff₀ (by norm_num : (0:ℚ) < 100)]
    have h : ((a + 99) / 100 - 1) * 100 < a := by omega
    exact_mod_cast h
  · rw [div_le_iff₀ (by norm_num : (0:ℚ) < 100)]
    have h : a ≤ (a + 99) / 100 * 100 := by omega
    exact_mod_cast h

theorem rolloutReconcile_unknown_eq (hcp : HelmChartProxy) (clusters : List Cluster)
    (helmReleaseProxies : List HelmReleaseProxy) (phase : InstallOrUpgrade)
    (ro : Rollout) (opts : RolloutOptions) (metaMap : List (String × HelmReleaseProxyRolloutMeta))
    (hro : hcp.spec.rollout = some ro)
    (hopts : phaseOptions ro phase = some opts)
    (hne : (clusters.length : Int) ≠ rolloutCountOf hcp)
    (hg : gatherRolloutMeta clusters helmReleaseProxies = some metaMap)
    (hunk : isUnknownCond hcp.status.conditions.releasesReady = true) :
    rolloutReconcile hcp clusters helmReleaseProxies phase =
      rolloutUnknownBranch hcp
        (markRolloutCompletedNotComplete hcp.status.conditions
          ((clusters.length : Int) - rolloutCountOf hcp))
        clusters helmReleaseProxies (rolloutMetaSortedOf metaMap) opts := by
  simp only [rolloutReconcile, hro, hopts, hg, hunk, if_neg hne]
  simp

theorem rolloutReconcile_false_eq (hcp : HelmChartProxy) (clusters : List Cluster)
    (helmReleaseProxies : List HelmReleaseProxy) (phase : InstallOrUpgrade)
    (ro : Rollout) (opts : RolloutOptions) (metaMap : List (String × HelmReleaseProxyRolloutMeta))
    (hro : hcp.spec.rollout = some ro)
    (hopts : phaseOptions ro phase = some opts)
    (hne : (clusters.length : Int) ≠ rolloutCountOf hcp)
    (hg : gatherRolloutMeta clusters helmReleaseProxies = some metaMap)
    (hunk : isUnknownCond hcp.status.conditions.releasesReady = false)
    (hfls : isFalseCond hcp.status.conditions.releasesReady = true) :
    rolloutReconcile hcp clusters helmReleaseProxies phase =
      rolloutFalseBranch hcp
        (markRolloutCompletedNotComplete hcp.status.conditions
          ((clusters.length : Int) - rolloutCountOf hcp))
        (rolloutMetaSortedOf metaMap) := by
  simp only [rolloutReconcile, hro, hopts, hg, hunk, hfls, if_neg hne]
  simp

theorem rolloutReconcile_true_eq (hcp : HelmChartProxy) (clusters : List Cluster)
    (helmReleaseProxies : List HelmReleaseProxy) (phase : InstallOrUpgrade)
    (ro : Rollout) (opts : RolloutOptions) (metaMap : List (String × HelmReleaseProxyRolloutMeta))
    (hro : hcp.spec.rollout = some ro)
    (hopts : phaseOptions ro phase = some opts)
    (hne : (clusters.length : Int) ≠ rolloutCountOf hcp)
    (hg : gatherRolloutMeta clusters helmReleaseProxies = some metaMap)
    (hunk : isUnknownCond hcp.status.conditions.releasesReady = false)
    (hfls : isFalseCond hcp.status.conditions.releasesReady = false) :
    rolloutReconcile hcp clusters helmReleaseProxies phase =
      rolloutTrueBranch hcp
        (markRolloutCompletedNotComplete hcp.status.conditions
          ((clusters.length : Int) - rolloutCountOf hcp))
        clusters (rolloutMetaSortedOf metaMap) opts := by
  simp only [rolloutReconcile, hro, hopts, hg, hunk, hfls, if_neg hne]
  simp

theorem rolloutReconcile_gather_none_eq (hcp : HelmChartProxy) (clusters : List Cluster)
    (helmReleaseProxies : List HelmReleaseProxy) (phase : InstallOrUpgrade)
    (ro : Rollout) (opts : RolloutOptions)
    (hro : hcp.spec.rollout = some ro)
    (hopts : phaseOptions ro phase = some opts)
    (hne : (clusters.length : Int) ≠ rolloutCountOf hcp)
    (hg : gatherRolloutMeta clusters helmReleaseProxies = none) :
    (rolloutReconcile hcp clusters helmReleaseProxies phase).result = .panicked := by
  simp only [rolloutReconcile, hro, hopts, hg, if_neg hne]

theorem rolloutTrueWalk_length (stepSize : Int) (l : List HelmReleaseProxyRolloutMeta) :
    ∀ count : Int, (∀ m ∈ l, m.hrpExists = true → m.hrpReady = true) →
      ((rolloutTrueWalk stepSize l count).length : Int) =
        max 0 (min (stepSize - count) (l.countP (fun m => !m.hrpExists) : Int)) := by
  induction l with
  | nil =>
    intro count _
    simp only [rolloutTrueWalk, List.length_nil, Nat.cast_zero, List.countP_nil]
    omega
  | cons m rest ih =>
    intro count h
    have hm : m.hrpExists = true → m.hrpReady = true := h m (by simp)
    have hrest : ∀ x ∈ rest, x.hrpExists = true → x.hrpReady = true :=
      fun x hx => h x (by simp [hx])
    have hab : ¬((m.hrpExists && !m.hrpReady) = true) := by
      intro hcontra
      simp only [Bool.and_eq_true, Bool.not_eq_true'] at hcontra
      have h2 := hm hcontra.1
      rw [h2] at hcontra
      exact absurd hcontra.2 (by simp)
    by_cases hc : count ≥ stepSize
    · rw [rolloutTrueWalk, if_neg hab, if_pos hc]
      have hN : (0 : Int) ≤ ((m :: rest).countP (fun m => !m.hrpExists) : Int) := by positivity
      simp only [List.length_nil, Nat.cast_zero]
      omega
    · by_cases he : m.hrpExists = true
      · rw [rolloutTrueWalk, if_neg hab, if_neg hc, if_pos he, ih count hrest]
        have : (m :: rest).countP (fun m => !m.hrpExists) = rest.countP (fun m => !m.hrpExists) := by
          simp [List.countP_cons, he]
        rw [this]
      · rw [rolloutTrueWalk, if_neg hab, if_neg hc, if_neg he]
        have hcnt : (m :: rest).countP (fun m => !m.hrpExists) =
            rest.countP (fun m => !m.hrpExists) + 1 := by
          simp [List.countP_cons, he]
        rw [hcnt]
        have hih := ih (count + 1) hrest
        simp only [List.length_cons]
        push_cast at hih ⊢
        omega

theorem rolloutTrueWalk_abort (stepSize : Int) (m : HelmReleaseProxyRolloutMeta)
    (hex : m.hrpExists = true) (hnr : m.hrpReady = false)
    (post : List HelmReleaseProxyRolloutMeta) :
    ∀ (pre : List HelmReleaseProxyRolloutMeta) (count : Int),
      rolloutTrueWalk stepSize (pre ++ m :: post) count = rolloutTrueWalk stepSize pre count := by
  intro pre
  induction pre with
  | nil =>
    intro count
    simp [rolloutTrueWalk, hex, hnr]
  | cons x rest ih =>
    intro count
    rw [List.cons_append, rolloutTrueWalk, rolloutTrueWalk]
    by_cases h1 : (x.hrpExists && !x.hrpReady) = true
    · rw [if_pos h1, if_pos h1]
    · rw [if_neg h1, if_neg h1]
      by_cases h2 : count ≥ stepSize
      · rw [if_pos h2, if_pos h2]
      · rw [if_neg h2, if_neg h2]
        by_cases h3 : x.hrpExists = true
        · rw [if_pos h3, if_pos h3, ih count]
        · rw [if_neg h3, if_neg h3, ih (count + 1)]

theorem rolloutTrueWalk_mem (stepSize : Int) (l : List HelmReleaseProxyRolloutMeta) :
    ∀ (count : Int) (c : Cluster), c ∈ rolloutTrueWalk stepSize l count →
      c ∈ l.map (fun m => m.cluster) := by
  induction l with
  | nil => intro count c hc; simp [rolloutTrueWalk] at hc
  | cons m rest ih =>
    intro count c hc
    rw [rolloutTrueWalk] at hc
    by_cases h1 : (m.hrpExists && !m.hrpReady) = true
    · rw [if_pos h1] at hc; simp at hc
    · rw [if_neg h1] at hc
      by_cases h2 : count ≥ stepSize
      · rw [if_pos h2] at hc; simp at hc
      · rw [if_neg h2] at hc
        by_cases h3 : m.hrpExists = true
        · rw [if_pos h3] at hc
          exact List.mem_cons_of_mem _ (ih count c hc)
        · rw [if_neg h3] at hc
          rcases List.mem_cons.mp hc with rfl | hmem
          · simp
          · exact List.mem_cons_of_mem _ (ih (count + 1) c hmem)

theorem mem_insertMetaSorted (x p : String × HelmReleaseProxyRolloutMeta) :
    ∀ l : List (String × HelmReleaseProxyRolloutMeta),
      (p ∈ insertMetaSorted x l ↔ p = x ∨ p ∈ l) := by
  intro l
  induction l with
  | nil => simp [insertMetaSorted]
  | cons y ys ih =>
    rw [insertMetaSorted]
    by_cases h : stringLt x.1 y.1 = true
    · rw [if_pos h]; simp
    · rw [if_neg h]
      simp only [List.mem_cons, ih]
      tauto

theorem mem_sortRolloutMeta (p : String × HelmReleaseProxyRolloutMeta) :
    ∀ l : List (String × HelmReleaseProxyRolloutMeta),
      (p ∈ sortRolloutMeta l ↔ p ∈ l) := by
  intro l
  induction l with
  | nil => simp [sortRolloutMeta]
  | cons x xs ih =>
    rw [sortRolloutMeta, mem_insertMetaSorted]
    simp [ih]

theorem mem_keys_insertClusterMeta (acc : List (String × HelmReleaseProxyRolloutMeta))
    (c : Cluster) (nn : String) :
    nn ∈ (insertClusterMeta acc c).map Prod.fst ↔
      nn ∈ acc.map Prod.fst ∨ nn = clusterNn c := by
  unfold insertClusterMeta
  by_cases h : acc.any (fun p => p.1 == clusterNn c) = true
  · rw [if_pos h]
    have hkeys : (acc.map (fun p =>
        if p.1 == clusterNn c then (p.1, (⟨c, false, false⟩ : HelmReleaseProxyRolloutMeta)) else p)).map
          Prod.fst = acc.map Prod.fst := by
      rw [List.map_map]
      apply List.map_congr_left
      intro p _
      simp only [Function.comp_apply]
      split <;> rfl
    rw [hkeys]
    have hmem : clusterNn c ∈ acc.map Prod.fst := by
      rcases List.any_eq_true.mp h with ⟨p, hp, hpe⟩
      exact List.mem_map.mpr ⟨p, hp, (beq_iff_eq.mp hpe)⟩
    constructor
    · exact Or.inl
    · rintro (hl | rfl)
      · exact hl
      · exact hmem
  · rw [if_neg h]
    simp [List.map_append]

theorem mem_keys_clusterNnRolloutMetaInit :
    ∀ (cs : List Cluster) (acc : List (String × HelmReleaseProxyRolloutMeta)) (nn : String),
      nn ∈ (clusterNnRolloutMetaInit acc cs).map Prod.fst ↔
        nn ∈ acc.map Prod.fst ∨ ∃ c ∈ cs, nn = clusterNn c := by
  intro cs
  induction cs with
  | nil => intro acc nn; simp [clusterNnRolloutMetaInit]
  | cons c rest ih =>
    intro acc nn
    rw [clusterNnRolloutMetaInit, ih, mem_keys_insertClusterMeta]
    simp only [List.mem_cons]
    constructor
    · rintro (⟨hl | rfl⟩ | ⟨x, hx, rfl⟩)
      · exact Or.inl hl
      · exact Or.inr ⟨c, Or.inl rfl, rfl⟩
      · exact Or.inr ⟨x, Or.inr hx, rfl⟩
    · rintro (hl | ⟨x, hx | hx, rfl⟩)
      · exact Or.inl (Or.inl hl)
      · subst hx; exact Or.inl (Or.inr rfl)
      · exact Or.inr ⟨x, hx, rfl⟩

theorem applyHelmReleaseProxyMeta_eq_none
    (acc : List (String × HelmReleaseProxyRolloutMeta)) (h : HelmReleaseProxy) :
    applyHelmReleaseProxyMeta acc h = none ↔ ¬ hrpClusterNn h ∈ acc.map Prod.fst := by
  unfold applyHelmReleaseProxyMeta
  by_cases hc : acc.any (fun p => p.1 == hrpClusterNn h) = true
  · rw [if_pos hc]
    rcases List.any_eq_true.mp hc with ⟨p, hp, hpe⟩
    simp only [reduceCtorEq, false_iff, not_not]
    exact List.mem_map.mpr ⟨p, hp, (beq_iff_eq.mp hpe)⟩
  · rw [if_neg hc]
    simp only [true_iff]
    intro hmem
    apply hc
    rcases List.mem_map.mp hmem with ⟨p, hp, hpe⟩
    exact List.any_eq_true.mpr ⟨p, hp, beq_iff_eq.mpr hpe⟩

theorem keys_applyHelmReleaseProxyMeta
    (acc acc2 : List (String × HelmReleaseProxyRolloutMeta)) (h : HelmReleaseProxy)
    (hs : applyHelmReleaseProxyMeta acc h = some acc2) :
    acc2.map Prod.fst = acc.map Prod.fst := by
  unfold applyHelmReleaseProxyMeta at hs
  by_cases hc : acc.any (fun p => p.1 == hrpClusterNn h) = true
  · rw [if_pos hc] at hs
    injection hs with hs
    rw [← hs, List.map_map]
    apply List.map_congr_left
    intro p _
    simp only [Function.comp_apply]
    split <;> rfl
  · rw [if_neg hc] at hs
    exact absurd hs (by simp)

theorem applyHelmReleaseProxies_eq_none (h : HelmReleaseProxy) :
    ∀ (hs : List HelmReleaseProxy) (acc : List (String × HelmReleaseProxyRolloutMeta)),
      h ∈ hs → ¬ hrpClusterNn h ∈ acc.map Prod.fst →
      applyHelmReleaseProxies acc hs = none := by
  intro hs
  induction hs with
  | nil => intro acc hmem; cases hmem
  | cons h0 rest ih =>
    intro acc hmem hkey
    rw [applyHelmReleaseProxies]
    cases hap : applyHelmReleaseProxyMeta acc h0 with
    | none => rfl
    | some acc2 =>
      rcases List.mem_cons.mp hmem with rfl | hm
      · exfalso
        apply hkey
        by_contra hnot
        rw [(applyHelmReleaseProxyMeta_eq_none acc h).mpr hnot] at hap
        exact absurd hap (by simp)
      · exact ih acc2 hm (by rw [keys_applyHelmReleaseProxyMeta acc acc2 h0 hap]; exact hkey)

theorem entries_insertClusterMeta (acc : List (String × HelmReleaseProxyRolloutMeta)) (c : Cluster)
    (hacc : ∀ p ∈ acc, p.1 = clusterNn p.2.cluster ∧ p.2.hrpExists = false) :
    ∀ p ∈ insertClusterMeta acc c, p.1 = clusterNn p.2.cluster ∧ p.2.hrpExists = false := by
  intro p hp
  unfold insertClusterMeta at hp
  by_cases h : acc.any (fun q => q.1 == clusterNn c) = true
  · rw [if_pos h] at hp
    rcases List.mem_map.mp hp with ⟨q, hq, hqe⟩
    by_cases hqc : (q.1 == clusterNn c) = true
    · rw [if_pos hqc] at hqe
      rw [← hqe]
      exact ⟨beq_iff_eq.mp hqc, rfl⟩
    · rw [if_neg hqc] at hqe
      rw [← hqe]
      exact hacc q hq
  · rw [if_neg h] at hp
    rcases List.mem_append.mp hp with hin | hnew
    · exact hacc p hin
    · rcases List.mem_singleton.mp hnew with rfl
      exact ⟨rfl, rfl⟩

theorem entries_clusterNnRolloutMetaInit :
    ∀ (cs : List Cluster) (acc : List (String × HelmReleaseProxyRolloutMeta)),
      (∀ p ∈ acc, p.1 = clusterNn p.2.cluster ∧ p.2.hrpExists = false) →
      ∀ p ∈ clusterNnRolloutMetaInit acc cs,
        p.1 = clusterNn p.2.cluster ∧ p.2.hrpExists = false := by
  intro cs
  induction cs with
  | nil => intro acc hacc; simpa [clusterNnRolloutMetaInit] using hacc
  | cons c rest ih =>
    intro acc hacc
    rw [clusterNnRolloutMetaInit]
    exact ih (insertClusterMeta acc c) (entries_insertClusterMeta acc c hacc)

theorem entries_applyHelmReleaseProxyMeta (hrps0 : List HelmReleaseProxy)
    (h : HelmReleaseProxy) (hh : h ∈ hrps0)
    (acc acc2 : List (String × HelmReleaseProxyRolloutMeta))
    (happ : applyHelmReleaseProxyMeta acc h = some acc2)
    (hacc : ∀ p ∈ acc, p.1 = clusterNn p.2.cluster ∧
      (p.2.hrpExists = true → ∃ g ∈ hrps0, hrpClusterNn g = p.1)) :
    ∀ p ∈ acc2, p.1 = clusterNn p.2.cluster ∧
      (p.2.hrpExists = true → ∃ g ∈ hrps0, hrpClusterNn g = p.1) := by
  intro p hp
  unfold applyHelmReleaseProxyMeta at happ
  by_cases hc : acc.any (fun q => q.1 == hrpClusterNn h) = true
  · rw [if_pos hc] at happ
    injection happ with happ
    rw [← happ] at hp
    rcases List.mem_map.mp hp with ⟨q, hq, hqe⟩
    by_cases hqc : (q.1 == hrpClusterNn h) = true
    · rw [if_pos hqc] at hqe
      rw [← hqe]
      refine ⟨(hacc q hq).1, fun _ => ⟨h, hh, ?_⟩⟩
      exact (beq_iff_eq.mp hqc).symm
    · rw [if_neg hqc] at hqe
      rw [← hqe]
      exact hacc q hq
  · rw [if_neg hc] at happ
    exact absurd happ (by simp)

theorem entries_applyHelmReleaseProxies (hrps0 : List HelmReleaseProxy) :
    ∀ (hs : List HelmReleaseProxy) (acc out : List (String × HelmReleaseProxyRolloutMeta)),
      (∀ g ∈ hs, g ∈ hrps0) →
      applyHelmReleaseProxies acc hs = some out →
      (∀ p ∈ acc, p.1 = clusterNn p.2.cluster ∧
        (p.2.hrpExists = true → ∃ g ∈ hrps0, hrpClusterNn g = p.1)) →
      ∀ p ∈ out, p.1 = clusterNn p.2.cluster ∧
        (p.2.hrpExists = true → ∃ g ∈ hrps0, hrpClusterNn g = p.1) := by
  intro hs
  induction hs with
  | nil =>
    intro acc out _ happ hacc
    rw [applyHelmReleaseProxies] at happ
    injection happ with happ
    rw [← happ]
    exact hacc
  | cons h0 rest ih =>
    intro acc out hsub happ hacc
    rw [applyHelmReleaseProxies] at happ
    cases hap : applyHelmReleaseProxyMeta acc h0 with
    | none => rw [hap] at happ; exact absurd happ (by simp)
    | some acc2 =>
      rw [hap] at happ
      refine ih acc2 out (fun g hg => hsub g (List.mem_cons_of_mem _ hg)) happ ?_
      exact entries_applyHelmReleaseProxyMeta hrps0 h0 (hsub h0 (by simp)) acc acc2 hap hacc

theorem entries_gatherRolloutMeta (clusters : List Cluster)
    (helmReleaseProxies : List HelmReleaseProxy)
    (metaMap : List (String × HelmReleaseProxyRolloutMeta))
    (hg : gatherRolloutMeta clusters helmReleaseProxies = some metaMap) :
    ∀ p ∈ metaMap, p.1 = clusterNn p.2.cluster ∧
      (p.2.hrpExists = true → ∃ g ∈ helmReleaseProxies, hrpClusterNn g = p.1) := by
  have hinit := entries_clusterNnRolloutMetaInit clusters [] (by simp)
  refine entries_applyHelmReleaseProxies helmReleaseProxies helmReleaseProxies
    (clusterNnRolloutMetaInit [] clusters) metaMap (fun g hg2 => hg2) hg ?_
  intro p hp
  rcases hinit p hp with ⟨h1, h2⟩
  refine ⟨h1, fun hcontra => ?_⟩
  rw [h2] at hcontra
  exact absurd hcontra (by simp)

theorem reconcileDeleteLoop_no_failure (del : HelmReleaseProxy → StoreDeleteOutcome)
    (get : HelmReleaseProxy → StoreGetOutcome) :
    ∀ rs : List HelmReleaseProxy,
      (∀ r ∈ rs, del r = .deleted ∧ (get r = .found ∨ get r = .notFound)) →
      reconcileDeleteLoop del get rs =
        (rs.filter (fun r => get r == .found),
         rs.flatMap (fun r => [.deleteOp r.name, .getOp r.name]), none) := by
  intro rs
  induction rs with
  | nil => intro _; simp [reconcileDeleteLoop]
  | cons r rest ih =>
    intro hr
    have hhead := hr r (by simp)
    have hrest : ∀ x ∈ rest, del x = .deleted ∧ (get x = .found ∨ get x = .notFound) :=
      fun x hx => hr x (by simp [hx])
    rw [reconcileDeleteLoop, hhead.1]
    rcases hhead.2 with hf | hnf
    · rw [hf, ih hrest]
      simp [List.filter_cons, hf]
    · rw [hnf, ih hrest]
      simp [List.filter_cons, hnf]

/-! Claim theorems. -/

/-- C1, counterexample: in the claimed scenario (10 candidate clusters, 2
existing Ready releases, Count=2, StepSize=2, StepIncrement 20 percent,
StepLimit 50 percent, aggregate Ready condition True) the pass creates 4 new
releases and persists Count=6, StepSize=4 — not the claimed 2 created and
Count=4, because the loop counts only releases created this pass against
newStepSize and skips existing releases without counting them. -/
theorem C1_counterexample :
    (rolloutReconcile hcpC1 clustersTen hrpsC1 .install).touched.length = 4 ∧
    (rolloutReconcile hcpC1 clustersTen hrpsC1 .install).rolloutStatus =
      some ⟨some 6, some 4⟩ ∧
    ¬((rolloutReconcile hcpC1 clustersTen hrpsC1 .install).touched.length = 2) ∧
    ¬((rolloutReconcile hcpC1 clustersTen hrpsC1 .install).rolloutStatus =
      some ⟨some 4, some 4⟩) := by
  decide

/-- C1, amended: in the True rollout state with every existing release of the
phase Ready, the pass requeues, creates exactly max(0, min(newStepSize, number
of candidates without a release)) new releases — newStepSize bounds the number
created this pass, not the total handled count — and persists
Count = oldCount + created this pass and StepSize = newStepSize; in the
concrete scenario of the claim this means 4 creations and Count=6, StepSize=4. -/
theorem C1_amended (hcp : HelmChartProxy) (clusters : List Cluster)
    (helmReleaseProxies : List HelmReleaseProxy) (phase : InstallOrUpgrade)
    (ro : Rollout) (opts : RolloutOptions)
    (metaMap : List (String × HelmReleaseProxyRolloutMeta)) (inc lim ini : Int)
    (hro : hcp.spec.rollout = some ro)
    (hopts : phaseOptions ro phase = some opts)
    (hne : (clusters.length : Int) ≠ rolloutCountOf hcp)
    (hg : gatherRolloutMeta clusters helmReleaseProxies = some metaMap)
    (htrue : isTrueCond hcp.status.conditions.releasesReady = true)
    (hready : ∀ m ∈ rolloutMetaSortedOf metaMap, m.hrpExists = true → m.hrpReady = true)
    (hinc : scaledOrZero opts.stepIncrement (clusters.length : Int) = .ok inc)
    (hlim : scaledOrZero opts.stepLimit (clusters.length : Int) = .ok lim)
    (hini : scaledOrZero opts.stepInit (clusters.length : Int) = .ok ini) :
    (rolloutReconcile hcp clusters helmReleaseProxies phase).result = .success true ∧
    (((rolloutReconcile hcp clusters helmReleaseProxies phase).touched.length : Int) =
      max 0 (min (computeNewStepSize (oldStepSizeOf hcp) inc lim ini)
        ((rolloutMetaSortedOf metaMap).countP (fun m => !m.hrpExists) : Int))) ∧
    (rolloutReconcile hcp clusters helmReleaseProxies phase).rolloutStatus =
      some ⟨some (rolloutCountOf hcp +
        ((rolloutReconcile hcp clusters helmReleaseProxies phase).touched.length : Int)),
        some (computeNewStepSize (oldStepSizeOf hcp) inc lim ini)⟩ := by
  have heq := rolloutReconcile_true_eq hcp clusters helmReleaseProxies phase ro opts metaMap
    hro hopts hne hg (isUnknownCond_eq_false_of_isTrue htrue) (isFalseCond_eq_false_of_isTrue htrue)
  rw [heq]
  unfold rolloutTrueBranch
  simp only [hinc, hlim, hini]
  refine ⟨by trivial, ?_, by trivial⟩
  have hw := rolloutTrueWalk_length (computeNewStepSize (oldStepSizeOf hcp) inc lim ini)
    (rolloutMetaSortedOf metaMap) 0 hready
  simpa using hw

/-- C1, witness for the amended theorem at the concrete scenario of the claim. -/
theorem C1_amended_witness :
    (rolloutReconcile hcpC1 clustersTen hrpsC1 .install).result = .success true ∧
    (((rolloutReconcile hcpC1 clustersTen hrpsC1 .install).touched.length : Int) =
      max 0 (min (computeNewStepSize (oldStepSizeOf hcpC1) 2 5 2)
        ((rolloutMetaSortedOf metaMapC1).countP (fun m => !m.hrpExists) : Int))) ∧
    (rolloutReconcile hcpC1 clustersTen hrpsC1 .install).rolloutStatus =
      some ⟨some (rolloutCountOf hcpC1 +
        ((rolloutReconcile hcpC1 clustersTen hrpsC1 .install).touched.length : Int)),
        some (computeNewStepSize (oldStepSizeOf hcpC1) 2 5 2)⟩ :=
  C1_amended hcpC1 clustersTen hrpsC1 .install ⟨some installOptionsC1, none⟩
    installOptionsC1 metaMapC1 2 5 2 rfl rfl (by decide) (by decide) (by decide)
    (by decide) rfl rfl rfl

/-- C2, counterexample: with one owned release whose ObservedGeneration (1)
lags its generation (2), the readiness aggregation leaves the aggregate Ready
condition (HelmReleaseProxiesReadyCondition) untouched — its status stays True
— instead of marking it False with an updating reason as claimed; the
condition marked False is HelmReleaseProxySpecsUpToDateCondition. -/
theorem C2_counterexample :
    (aggregateHelmReleaseProxyReadyCondition condsC2 [hrpLagC2]).releasesReady =
      condsC2.releasesReady ∧
    ¬((aggregateHelmReleaseProxyReadyCondition condsC2 [hrpLagC2]).releasesReady.map
        Condition.status = some .condFalse) ∧
    (aggregateHelmReleaseProxyReadyCondition condsC2 [hrpLagC2]).specsUpToDate =
      some ⟨.condFalse, .specsUpdatingReason, specsUpdatingMsg "hrp-lag"⟩ := by
  decide

/-- C2, amended: when some owned release's ObservedGeneration differs from its
generation, the pass marks HelmReleaseProxySpecsUpToDateCondition — not the
aggregate Ready condition — False with the SpecsUpdating reason, leaves
HelmReleaseProxiesReadyCondition (and the rollout-completed condition)
unchanged, and does not evaluate the per-release Ready conditions. -/
theorem C2_amended (conds : HcpConditions) (releaseList : List HelmReleaseProxy)
    (hLag : HelmReleaseProxy)
    (hfind : releaseList.find? (fun h => h.generation != h.observedGeneration) = some hLag) :
    (aggregateHelmReleaseProxyReadyCondition conds releaseList).releasesReady =
      conds.releasesReady ∧
    (aggregateHelmReleaseProxyReadyCondition conds releaseList).specsUpToDate =
      some ⟨.condFalse, .specsUpdatingReason, specsUpdatingMsg hLag.name⟩ ∧
    (aggregateHelmReleaseProxyReadyCondition conds releaseList).rolloutCompleted =
      conds.rolloutCompleted := by
  have hne : releaseList.length ≠ 0 := by
    intro h0
    rw [List.length_eq_zero] at h0
    rw [h0] at hfind
    simp [List.find?] at hfind
  unfold aggregateHelmReleaseProxyReadyCondition
  rw [if_neg hne, hfind]
  exact ⟨rfl, rfl, rfl⟩

/-- C2, witness for the amended theorem at the concrete lagging release. -/
theorem C2_amended_witness :
    (aggregateHelmReleaseProxyReadyCondition condsC2 [hrpLagC2]).releasesReady =
      condsC2.releasesReady ∧
    (aggregateHelmReleaseProxyReadyCondition condsC2 [hrpLagC2]).specsUpToDate =
      some ⟨.condFalse, .specsUpdatingReason, specsUpdatingMsg hrpLagC2.name⟩ ∧
    (aggregateHelmReleaseProxyReadyCondition condsC2 [hrpLagC2]).rolloutCompleted =
      condsC2.rolloutCompleted :=
  C2_amended condsC2 [hrpLagC2] hrpLagC2 (by decide)

/-- C3, counterexample: a release whose ClusterRef matches no candidate
cluster does not make every invocation panic — with persisted Count equal to
the candidate count the pass takes the completed branch and returns normally
before the metadata-gathering step runs. -/
theorem C3_counterexample :
    (∀ c ∈ [mkCluster "a"], hrpClusterNn orphanHrpC3 ≠ clusterNn c) ∧
    (rolloutReconcile hcpC3ce [mkCluster "a"] [orphanHrpC3] .install).result =
      .success false ∧
    ¬((rolloutReconcile hcpC3ce [mkCluster "a"] [orphanHrpC3] .install).result =
      .panicked) := by
  decide

/-- C3, amended: whenever the pass reaches the metadata-gathering step (the
phase has rollout options and the persisted Count differs from the candidate
count) and some HelmReleaseProxy in the supplied release list has a ClusterRef
matching no candidate cluster, the gathering dereferences a nil map entry and
the pass panics instead of returning an error. -/
theorem C3_amended (hcp : HelmChartProxy) (clusters : List Cluster)
    (helmReleaseProxies : List HelmReleaseProxy) (phase : InstallOrUpgrade)
    (ro : Rollout) (opts : RolloutOptions) (h : HelmReleaseProxy)
    (hro : hcp.spec.rollout = some ro)
    (hopts : phaseOptions ro phase = some opts)
    (hne : (clusters.length : Int) ≠ rolloutCountOf hcp)
    (hmem : h ∈ helmReleaseProxies)
    (hnm : ∀ c ∈ clusters, hrpClusterNn h ≠ clusterNn c) :
    (rolloutReconcile hcp clusters helmReleaseProxies phase).result = .panicked := by
  have hkey : ¬ hrpClusterNn h ∈ (clusterNnRolloutMetaInit [] clusters).map Prod.fst := by
    intro hk
    rcases (mem_keys_clusterNnRolloutMetaInit clusters [] (hrpClusterNn h)).mp hk with
      hfalse | ⟨c, hc, he⟩
    · simp at hfalse
    · exact hnm c hc he
  have hgnone : gatherRolloutMeta clusters helmReleaseProxies = none :=
    applyHelmReleaseProxies_eq_none h helmReleaseProxies
      (clusterNnRolloutMetaInit [] clusters) hmem hkey
  exact rolloutReconcile_gather_none_eq hcp clusters helmReleaseProxies phase ro opts
    hro hopts hne hgnone

/-- C3, witness for the amended theorem: same orphaned release, but with Count
not equal to the candidate count, so the pass reaches the gathering and
panics. -/
theorem C3_amended_witness :
    (rolloutReconcile hcpC3w [mkCluster "a"] [orphanHrpC3] .install).result = .panicked :=
  C3_amended hcpC3w [mkCluster "a"] [orphanHrpC3] .install
    ⟨some ⟨some (.intVal 1), none, none⟩, none⟩ ⟨some (.intVal 1), none, none⟩
    orphanHrpC3 rfl rfl (by decide) (by decide) (by decide)

/-- C4, counterexample: on first generation with Spec.Rollout.Install unset
but Spec.Rollout.Upgrade set, the pass takes the unconditional full fan-out
(every candidate reconciled, RolloutCompleted marked True with the
rollout-not-used message), not the staged rollout in the Upgrade phase. -/
theorem C4_counterexample :
    (reconcileNormal hcpC4 clustersC4 []).phase = none ∧
    ¬((reconcileNormal hcpC4 clustersC4 []).phase = some .upgrade) ∧
    (reconcileNormal hcpC4 clustersC4 []).pass.touched = clustersC4 ∧
    (reconcileNormal hcpC4 clustersC4 []).pass.conditions.rolloutCompleted =
      some ⟨.condTrue, .rolloutUndefinedReason, hrpRolloutCompletedMsg⟩ := by
  decide

/-- C4, amended: the active phase is Install exactly on first generation (with
Spec.Rollout and Spec.Rollout.Install set) and Upgrade exactly on later
generations (with Spec.Rollout and Spec.Rollout.Upgrade set); the unconditional
full fan-out — reconcile every candidate this pass and mark RolloutCompleted
True with the rollout-not-used message — is taken in every other case, in
particular on first generation with Install unset even when Upgrade is set. -/
theorem C4_amended (hcp : HelmChartProxy) (clusters : List Cluster)
    (helmReleaseProxies : List HelmReleaseProxy) :
    ((reconcileNormal hcp clusters helmReleaseProxies).phase = some .install ↔
      hcp.generation = 1 ∧ ∃ ro, hcp.spec.rollout = some ro ∧ ro.install.isSome = true) ∧
    ((reconcileNormal hcp clusters helmReleaseProxies).phase = some .upgrade ↔
      ¬hcp.generation = 1 ∧ ∃ ro, hcp.spec.rollout = some ro ∧ ro.upgrade.isSome = true) ∧
    ((reconcileNormal hcp clusters helmReleaseProxies).phase = none →
      (reconcileNormal hcp clusters helmReleaseProxies).pass.touched = clusters ∧
      (reconcileNormal hcp clusters helmReleaseProxies).pass.conditions.rolloutCompleted =
        some ⟨.condTrue, .rolloutUndefinedReason, hrpRolloutCompletedMsg⟩ ∧
      (reconcileNormal hcp clusters helmReleaseProxies).pass.result = .success false) := by
  unfold reconcileNormal
  cases hro : hcp.spec.rollout with
  | none =>
    simp [fanOutPass, markRolloutCompletedUndefined]
  | some ro =>
    by_cases hgen : hcp.generation = 1
    · cases hi : ro.install with
      | none => simp [fanOutPass, markRolloutCompletedUndefined, hgen, hi]
      | some opts => simp [hgen, hi]
    · cases hu : ro.upgrade with
      | none => simp [fanOutPass, markRolloutCompletedUndefined, hgen, hu]
      | some opts => simp [hgen, hu]

/-- C4, witness: the fan-out part of the amended theorem at the concrete
first-generation, Install-unset, Upgrade-set instance. -/
theorem C4_amended_witness :
    (reconcileNormal hcpC4 clustersC4 []).pass.touched = clustersC4 ∧
    (reconcileNormal hcpC4 clustersC4 []).pass.conditions.rolloutCompleted =
      some ⟨.condTrue, .rolloutUndefinedReason, hrpRolloutCompletedMsg⟩ ∧
    (reconcileNormal hcpC4 clustersC4 []).pass.result = .success false :=
  (C4_amended hcpC4 clustersC4 []).2.2 (by decide)

/-- C5: in the True rollout state the persisted StepSize is exactly the newly
computed step size, which equals StepLimit when StepLimit > StepInit and
oldStepSize + stepIncrement exceeds StepLimit, and equals
oldStepSize + stepIncrement in every other case — in particular whenever
StepLimit is at most StepInit, even if the sum exceeds StepLimit. -/
theorem C5_theorem (hcp : HelmChartProxy) (clusters : List Cluster)
    (helmReleaseProxies : List HelmReleaseProxy) (phase : InstallOrUpgrade)
    (ro : Rollout) (opts : RolloutOptions)
    (metaMap : List (String × HelmReleaseProxyRolloutMeta)) (inc lim ini : Int)
    (hro : hcp.spec.rollout = some ro)
    (hopts : phaseOptions ro phase = some opts)
    (hne : (clusters.length : Int) ≠ rolloutCountOf hcp)
    (hg : gatherRolloutMeta clusters helmReleaseProxies = some metaMap)
    (htrue : isTrueCond hcp.status.conditions.releasesReady = true)
    (hinc : scaledOrZero opts.stepIncrement (clusters.length : Int) = .ok inc)
    (hlim : scaledOrZero opts.stepLimit (clusters.length : Int) = .ok lim)
    (hini : scaledOrZero opts.stepInit (clusters.length : Int) = .ok ini) :
    (rolloutReconcile hcp clusters helmReleaseProxies phase).rolloutStatus.map
      RolloutStatus.stepSize =
      some (some (computeNewStepSize (oldStepSizeOf hcp) inc lim ini)) ∧
    (lim > ini ∧ oldStepSizeOf hcp + inc > lim →
      computeNewStepSize (oldStepSizeOf hcp) inc lim ini = lim) ∧
    (¬(lim > ini ∧ oldStepSizeOf hcp + inc > lim) →
      computeNewStepSize (oldStepSizeOf hcp) inc lim ini = oldStepSizeOf hcp + inc) ∧
    (lim ≤ ini →
      computeNewStepSize (oldStepSizeOf hcp) inc lim ini = oldStepSizeOf hcp + inc) := by
  have heq := rolloutReconcile_true_eq hcp clusters helmReleaseProxies phase ro opts metaMap
    hro hopts hne hg (isUnknownCond_eq_false_of_isTrue htrue) (isFalseCond_eq_false_of_isTrue htrue)
  rw [heq]
  unfold rolloutTrueBranch
  simp only [hinc, hlim, hini]
  refine ⟨by trivial, ?_, ?_, ?_⟩
  · intro hcap
    simp only [computeNewStepSize]
    rw [if_pos hcap]
  · intro hncap
    simp only [computeNewStepSize]
    rw [if_neg hncap]
  · intro hle
    have hncap : ¬(lim > ini ∧ oldStepSizeOf hcp + inc > lim) := by omega
    simp only [computeNewStepSize]
    rw [if_neg hncap]

/-- C5, witness at a concrete instance where the cap binds: oldStepSize 4,
increment 3, limit 5, init 2 over ten clusters. -/
theorem C5_theorem_witness :
    (rolloutReconcile hcpC5 clustersTen [] .install).rolloutStatus.map
      RolloutStatus.stepSize =
      some (some (computeNewStepSize (oldStepSizeOf hcpC5) 3 5 2)) ∧
    ((5 : Int) > 2 ∧ oldStepSizeOf hcpC5 + 3 > 5 →
      computeNewStepSize (oldStepSizeOf hcpC5) 3 5 2 = 5) ∧
    (¬((5 : Int) > 2 ∧ oldStepSizeOf hcpC5 + 3 > 5) →
      computeNewStepSize (oldStepSizeOf hcpC5) 3 5 2 = oldStepSizeOf hcpC5 + 3) ∧
    ((5 : Int) ≤ 2 →
      computeNewStepSize (oldStepSizeOf hcpC5) 3 5 2 = oldStepSizeOf hcpC5 + 3) :=
  C5_theorem hcpC5 clustersTen [] .install ⟨some installOptionsC5, none⟩
    installOptionsC5 metaMapC5 3 5 2 rfl rfl (by decide) (by decide) (by decide)
    rfl rfl rfl

/-- C6, counterexample: clusters a and b, where b already has a non-Ready
release, persisted Count=1, StepSize=1, StepIncrement 1, aggregate Ready
condition (stale) True: the pass creates a release for a, aborts at b with a
requeue, and persists Count=2, StepSize=2 — the persisted RolloutState is not
left exactly as it was before the pass, refuting the claim. -/
theorem C6_counterexample :
    (rolloutReconcile hcpC6 clustersC6 hrpsC6 .install).result = .success true ∧
    (rolloutReconcile hcpC6 clustersC6 hrpsC6 .install).touched = [mkCluster "a"] ∧
    (rolloutReconcile hcpC6 clustersC6 hrpsC6 .install).rolloutStatus =
      some ⟨some 2, some 2⟩ ∧
    ¬((rolloutReconcile hcpC6 clustersC6 hrpsC6 .install).rolloutStatus =
      hcpC6.status.rollout) := by
  decide

/-- C6, amended: in the True rollout state, when the sorted candidate walk
reaches a candidate that already has a release but is not Ready, the pass
aborts with a requeue and creates no release from that point on (every touched
cluster comes from the candidates before the aborting one), but the deferred
status update still runs: it persists Count = oldCount + number created before
the abort and StepSize = the newly computed newStepSize. -/
theorem C6_amended (hcp : HelmChartProxy) (clusters : List Cluster)
    (helmReleaseProxies : List HelmReleaseProxy) (phase : InstallOrUpgrade)
    (ro : Rollout) (opts : RolloutOptions)
    (metaMap : List (String × HelmReleaseProxyRolloutMeta)) (inc lim ini : Int)
    (pre post : List HelmReleaseProxyRolloutMeta) (m : HelmReleaseProxyRolloutMeta)
    (hro : hcp.spec.rollout = some ro)
    (hopts : phaseOptions ro phase = some opts)
    (hne : (clusters.length : Int) ≠ rolloutCountOf hcp)
    (hg : gatherRolloutMeta clusters helmReleaseProxies = some metaMap)
    (htrue : isTrueCond hcp.status.conditions.releasesReady = true)
    (hinc : scaledOrZero opts.stepIncrement (clusters.length : Int) = .ok inc)
    (hlim : scaledOrZero opts.stepLimit (clusters.length : Int) = .ok lim)
    (hini : scaledOrZero opts.stepInit (clusters.length : Int) = .ok ini)
    (hsplit : rolloutMetaSortedOf metaMap = pre ++ m :: post)
    (hex : m.hrpExists = true) (hnr : m.hrpReady = false) :
    (rolloutReconcile hcp clusters helmReleaseProxies phase).result = .success true ∧
    (rolloutReconcile hcp clusters helmReleaseProxies phase).touched =
      rolloutTrueWalk (computeNewStepSize (oldStepSizeOf hcp) inc lim ini) pre 0 ∧
    (∀ c ∈ (rolloutReconcile hcp clusters helmReleaseProxies phase).touched,
      c ∈ pre.map (fun x => x.cluster)) ∧
    (rolloutReconcile hcp clusters helmReleaseProxies phase).rolloutStatus =
      some ⟨some (rolloutCountOf hcp +
        ((rolloutReconcile hcp clusters helmReleaseProxies phase).touched.length : Int)),
        some (computeNewStepSize (oldStepSizeOf hcp) inc lim ini)⟩ := by
  have heq := rolloutReconcile_true_eq hcp clusters helmReleaseProxies phase ro opts metaMap
    hro hopts hne hg (isUnknownCond_eq_false_of_isTrue htrue) (isFalseCond_eq_false_of_isTrue htrue)
  rw [heq]
  unfold rolloutTrueBranch
  simp only [hinc, hlim, hini]
  rw [hsplit, rolloutTrueWalk_abort (computeNewStepSize (oldStepSizeOf hcp) inc lim ini)
    m hex hnr post pre 0]
  refine ⟨by trivial, by trivial, ?_, by trivial⟩
  exact fun c hc => rolloutTrueWalk_mem (computeNewStepSize (oldStepSizeOf hcp) inc lim ini)
    pre 0 c hc

/-- C6, witness for the amended theorem at the concrete two-cluster instance. -/
theorem C6_amended_witness :
    (rolloutReconcile hcpC6 clustersC6 hrpsC6 .install).result = .success true ∧
    (rolloutReconcile hcpC6 clustersC6 hrpsC6 .install).touched =
      rolloutTrueWalk (computeNewStepSize (oldStepSizeOf hcpC6) 1 0 0) preC6 0 ∧
    (∀ c ∈ (rolloutReconcile hcpC6 clustersC6 hrpsC6 .install).touched,
      c ∈ preC6.map (fun x => x.cluster)) ∧
    (rolloutReconcile hcpC6 clustersC6 hrpsC6 .install).rolloutStatus =
      some ⟨some (rolloutCountOf hcpC6 +
        ((rolloutReconcile hcpC6 clustersC6 hrpsC6 .install).touched.length : Int)),
        some (computeNewStepSize (oldStepSizeOf hcpC6) 1 0 0)⟩ :=
  C6_amended hcpC6 clustersC6 hrpsC6 .install
    ⟨some ⟨none, some (.intVal 1), none⟩, none⟩ ⟨none, some (.intVal 1), none⟩
    metaMapC6 1 0 0 preC6 [] abortMetaC6 rfl rfl (by decide) (by decide) (by decide)
    rfl rfl rfl (by decide) (by decide) (by decide)

/-- C7, counterexample: in the Unknown state with one candidate, no existing
releases and StepInit 0, the number of existing releases (0) equals the
resolved stepSize (0), the pass requeues without creating any release — but it
does persist an updated RolloutState, overwriting it with Count=0, StepSize=0,
refuting the no-persistence part of the claim. -/
theorem C7_counterexample :
    (rolloutReconcile hcpC7 clustersC7 [] .install).result = .success true ∧
    (rolloutReconcile hcpC7 clustersC7 [] .install).touched = [] ∧
    (rolloutReconcile hcpC7 clustersC7 [] .install).rolloutStatus =
      some ⟨some 0, some 0⟩ ∧
    ¬((rolloutReconcile hcpC7 clustersC7 [] .install).rolloutStatus =
      hcpC7.status.rollout) := by
  decide

/-- C7, amended: on the Unknown branch, when the number of existing releases
for the phase equals the resolved stepSize, the pass requeues without creating
any release; when that number is nonzero the persisted RolloutState is left
untouched, but in the stepSize = 0 with zero releases case the deferred status
update still runs and persists Count=0, StepSize=0. -/
theorem C7_amended (hcp : HelmChartProxy) (clusters : List Cluster)
    (helmReleaseProxies : List HelmReleaseProxy) (phase : InstallOrUpgrade)
    (ro : Rollout) (opts : RolloutOptions)
    (metaMap : List (String × HelmReleaseProxyRolloutMeta)) (s : Int)
    (hro : hcp.spec.rollout = some ro)
    (hopts : phaseOptions ro phase = some opts)
    (hne : (clusters.length : Int) ≠ rolloutCountOf hcp)
    (hg : gatherRolloutMeta clusters helmReleaseProxies = some metaMap)
    (hunk : isUnknownCond hcp.status.conditions.releasesReady = true)
    (hres : getScaledValueFromIntOrPercent opts.stepInit (clusters.length : Int) = .ok s)
    (hlen : (helmReleaseProxies.length : Int) = s) :
    (rolloutReconcile hcp clusters helmReleaseProxies phase).result = .success true ∧
    (rolloutReconcile hcp clusters helmReleaseProxies phase).touched = [] ∧
    (helmReleaseProxies.length ≠ 0 →
      (rolloutReconcile hcp clusters helmReleaseProxies phase).rolloutStatus =
        hcp.status.rollout) ∧
    (helmReleaseProxies.length = 0 →
      (rolloutReconcile hcp clusters helmReleaseProxies phase).rolloutStatus =
        some ⟨some 0, some 0⟩) := by
  have heq := rolloutReconcile_unknown_eq hcp clusters helmReleaseProxies phase ro opts metaMap
    hro hopts hne hg hunk
  rw [heq]
  unfold rolloutUnknownBranch
  by_cases hl : helmReleaseProxies.length ≠ 0
  · rw [if_pos hl]
    exact ⟨rfl, rfl, fun _ => rfl, fun h0 => absurd h0 hl⟩
  · rw [if_neg hl]
    push_neg at hl
    have hs0 : s = 0 := by
      rw [hl] at hlen
      simpa using hlen.symm
    simp only [hres]
    rw [if_pos hlen.symm]
    refine ⟨rfl, rfl, fun hc => absurd hl hc, fun _ => ?_⟩
    rw [hs0]

/-- C7, witness for the amended theorem at the concrete stepSize-0 instance. -/
theorem C7_amended_witness :
    (rolloutReconcile hcpC7 clustersC7 [] .install).result = .success true ∧
    (rolloutReconcile hcpC7 clustersC7 [] .install).touched = [] ∧
    (([] : List HelmReleaseProxy).length ≠ 0 →
      (rolloutReconcile hcpC7 clustersC7 [] .install).rolloutStatus =
        hcpC7.status.rollout) ∧
    (([] : List HelmReleaseProxy).length = 0 →
      (rolloutReconcile hcpC7 clustersC7 [] .install).rolloutStatus =
        some ⟨some 0, some 0⟩) :=
  C7_amended hcpC7 clustersC7 [] .install
    ⟨some ⟨some (.intVal 0), none, none⟩, none⟩ ⟨some (.intVal 0), none, none⟩
    ((gatherRolloutMeta clustersC7 []).getD []) 0 rfl rfl (by decide) (by decide)
    (by decide) rfl (by decide)

/-- C8: when the aggregate Ready condition over the releases of the active
phase is False, the pass requeues, leaves the persisted RolloutState
untouched, and reconciles exactly the sorted candidates whose release already
exists — every touched cluster is backed by a HelmReleaseProxy in the supplied
list, so no new release is created and no cluster without a release receives
one while the batch is not Ready. -/
theorem C8_theorem (hcp : HelmChartProxy) (clusters : List Cluster)
    (helmReleaseProxies : List HelmReleaseProxy) (phase : InstallOrUpgrade)
    (ro : Rollout) (opts : RolloutOptions)
    (metaMap : List (String × HelmReleaseProxyRolloutMeta))
    (hro : hcp.spec.rollout = some ro)
    (hopts : phaseOptions ro phase = some opts)
    (hne : (clusters.length : Int) ≠ rolloutCountOf hcp)
    (hg : gatherRolloutMeta clusters helmReleaseProxies = some metaMap)
    (hfalse : isFalseCond hcp.status.conditions.releasesReady = true) :
    (rolloutReconcile hcp clusters helmReleaseProxies phase).result = .success true ∧
    (rolloutReconcile hcp clusters helmReleaseProxies phase).rolloutStatus =
      hcp.status.rollout ∧
    (rolloutReconcile hcp clusters helmReleaseProxies phase).touched =
      ((rolloutMetaSortedOf metaMap).filter (fun m => m.hrpExists)).map
        (fun m => m.cluster) ∧
    (∀ c ∈ (rolloutReconcile hcp clusters helmReleaseProxies phase).touched,
      ∃ g ∈ helmReleaseProxies, hrpClusterNn g = clusterNn c) := by
  have heq := rolloutReconcile_false_eq hcp clusters helmReleaseProxies phase ro opts metaMap
    hro hopts hne hg (isUnknownCond_eq_false_of_isFalse hfalse) hfalse
  rw [heq]
  unfold rolloutFalseBranch
  refine ⟨rfl, rfl, rfl, ?_⟩
  intro c hc
  rcases List.mem_map.mp hc with ⟨mm, hmf, rfl⟩
  rcases List.mem_filter.mp hmf with ⟨hm, hex⟩
  simp only [rolloutMetaSortedOf] at hm
  rcases List.mem_map.mp hm with ⟨p, hps, hpm⟩
  have hpmem : p ∈ metaMap := (mem_sortRolloutMeta p metaMap).mp hps
  rcases entries_gatherRolloutMeta clusters helmReleaseProxies metaMap hg p hpmem with ⟨hk, hxe⟩
  rcases hxe (by rw [hpm]; exact hex) with ⟨g, hgmem, hge⟩
  refine ⟨g, hgmem, ?_⟩
  rw [hge, hk, hpm]

/-- C8, witness at the concrete instance: two clusters, one existing non-Ready
release, aggregate Ready condition False. -/
theorem C8_theorem_witness :
    (rolloutReconcile hcpC8 clustersC8 hrpsC8 .install).result = .success true ∧
    (rolloutReconcile hcpC8 clustersC8 hrpsC8 .install).rolloutStatus =
      hcpC8.status.rollout ∧
    (rolloutReconcile hcpC8 clustersC8 hrpsC8 .install).touched =
      ((rolloutMetaSortedOf metaMapC8).filter (fun m => m.hrpExists)).map
        (fun m => m.cluster) ∧
    (∀ c ∈ (rolloutReconcile hcpC8 clustersC8 hrpsC8 .install).touched,
      ∃ g ∈ hrpsC8, hrpClusterNn g = clusterNn c) :=
  C8_theorem hcpC8 clustersC8 hrpsC8 .install
    ⟨some ⟨some (.intVal 1), none, none⟩, none⟩ ⟨some (.intVal 1), none, none⟩
    metaMapC8 rfl rfl (by decide) (by decide) (by decide)

/-- C9, counterexample: with the finalizer present, one owned release whose
delete succeeds but whose fresh get still finds it, the top-level deletion
flow keeps the finalizer and records the pending release, but it discards the
Requeue requested by reconcileDelete and returns with requeue false — the pass
does not requeue as claimed. -/
theorem C9_counterexample :
    (reconcileDeleteFlow condsC9 true [hrpR1C9] delOkC9 getFoundC9).pendingReleases =
      [hrpR1C9] ∧
    (reconcileDeleteFlow condsC9 true [hrpR1C9] delOkC9 getFoundC9).finalizerPresent =
      true ∧
    (reconcileDeleteFlow condsC9 true [hrpR1C9] delOkC9 getFoundC9).requeue = false := by
  decide

/-- C9, amended: in a pass without store errors, the deletion flow issues a
delete followed by a fresh get for every owned release, in order; a NotFound
on the get is treated as confirmed removal, so the pending set is exactly the
releases still found; while the pending set is nonempty the aggregate Ready
condition is recomputed over it, reconcileDelete requests a requeue and the
finalizer is kept — but Reconcile discards that requeue and returns without
requeue and without error; once nothing is pending the finalizer is removed
and the pass returns without requeue. -/
theorem C9_amended (conds : HcpConditions) (releases : List HelmReleaseProxy)
    (del : HelmReleaseProxy → StoreDeleteOutcome)
    (get : HelmReleaseProxy → StoreGetOutcome)
    (hst : ∀ r ∈ releases, del r = .deleted ∧ (get r = .found ∨ get r = .notFound)) :
    (reconcileDelete conds releases del get).ops =
      releases.flatMap (fun r => [.deleteOp r.name, .getOp r.name]) ∧
    (reconcileDelete conds releases del get).pendingReleases =
      releases.filter (fun r => get r == .found) ∧
    ((reconcileDelete conds releases del get).pendingReleases ≠ [] →
      (reconcileDelete conds releases del get).result = .success true ∧
      (reconcileDelete conds releases del get).conditions.releasesReady =
        some (setAggregate (reconcileDelete conds releases del get).pendingReleases) ∧
      (reconcileDeleteFlow conds true releases del get).finalizerPresent = true) ∧
    ((reconcileDelete conds releases del get).pendingReleases = [] →
      (reconcileDelete conds releases del get).result = .success false ∧
      (reconcileDeleteFlow conds true releases del get).finalizerPresent = false) ∧
    (reconcileDeleteFlow conds true releases del get).requeue = false := by
  have hloop := reconcileDeleteLoop_no_failure del get releases hst
  by_cases hp : (releases.filter (fun r => get r == .found)).length ≠ 0
  · have hd : reconcileDelete conds releases del get =
        ⟨{ conds with releasesReady :=
            (some (setAggregate (releases.filter (fun r => get r == .found)))) },
          releases.filter (fun r => get r == .found),
          releases.flatMap (fun r => [.deleteOp r.name, .getOp r.name]), .success true⟩ := by
      simp only [reconcileDelete, hloop]
      rw [if_pos hp]
    have hf : reconcileDeleteFlow conds true releases del get =
        ⟨{ conds with releasesReady :=
            (some (setAggregate (releases.filter (fun r => get r == .found)))) },
          releases.filter (fun r => get r == .found),
          releases.flatMap (fun r => [.deleteOp r.name, .getOp r.name]),
          true, false, none⟩ := by
      simp only [reconcileDeleteFlow, hd, if_true]
    rw [hd, hf]
    refine ⟨rfl, rfl, fun _ => ⟨rfl, rfl, rfl⟩, fun hnil => ?_, rfl⟩
    have hnil2 : releases.filter (fun r => get r == .found) = [] := hnil
    exact absurd (List.length_eq_zero.mpr hnil2) hp
  · push_neg at hp
    have hnil : releases.filter (fun r => get r == .found) = [] :=
      List.length_eq_zero.mp hp
    have hd : reconcileDelete conds releases del get =
        ⟨conds, releases.filter (fun r => get r == .found),
          releases.flatMap (fun r => [.deleteOp r.name, .getOp r.name]), .success false⟩ := by
      simp only [reconcileDelete, hloop]
      rw [if_neg (by simpa using congrArg List.length hnil)]
    have hf : reconcileDeleteFlow conds true releases del get =
        ⟨conds, releases.filter (fun r => get r == .found),
          releases.flatMap (fun r => [.deleteOp r.name, .getOp r.name]),
          false, false, none⟩ := by
      simp only [reconcileDeleteFlow, hd, if_true]
    rw [hd, hf]
    refine ⟨rfl, rfl, fun hne2 => ?_, fun _ => ⟨rfl, rfl⟩, rfl⟩
    have hne3 : releases.filter (fun r => get r == .found) ≠ [] := hne2
    exact absurd hnil hne3

/-- C9, witness for the amended theorem: two releases, one still found after
its delete, one already NotFound. -/
theorem C9_amended_witness :
    (reconcileDelete condsC9 [hrpR1C9, hrpR2C9] delOkC9 getMixedC9).ops =
      [hrpR1C9, hrpR2C9].flatMap (fun r => [.deleteOp r.name, .getOp r.name]) ∧
    (reconcileDelete condsC9 [hrpR1C9, hrpR2C9] delOkC9 getMixedC9).pendingReleases =
      [hrpR1C9, hrpR2C9].filter (fun r => getMixedC9 r == .found) ∧
    ((reconcileDelete condsC9 [hrpR1C9, hrpR2C9] delOkC9 getMixedC9).pendingReleases ≠ [] →
      (reconcileDelete condsC9 [hrpR1C9, hrpR2C9] delOkC9 getMixedC9).result =
        .success true ∧
      (reconcileDelete condsC9 [hrpR1C9, hrpR2C9] delOkC9 getMixedC9).conditions.releasesReady =
        some (setAggregate
          (reconcileDelete condsC9 [hrpR1C9, hrpR2C9] delOkC9 getMixedC9).pendingReleases) ∧
      (reconcileDeleteFlow condsC9 true [hrpR1C9, hrpR2C9] delOkC9 getMixedC9).finalizerPresent =
        true) ∧
    ((reconcileDelete condsC9 [hrpR1C9, hrpR2C9] delOkC9 getMixedC9).pendingReleases = [] →
      (reconcileDelete condsC9 [hrpR1C9, hrpR2C9] delOkC9 getMixedC9).result =
        .success false ∧
      (reconcileDeleteFlow condsC9 true [hrpR1C9, hrpR2C9] delOkC9 getMixedC9).finalizerPresent =
        false) ∧
    (reconcileDeleteFlow condsC9 true [hrpR1C9, hrpR2C9] delOkC9 getMixedC9).requeue = false :=
  C9_amended condsC9 [hrpR1C9, hrpR2C9] delOkC9 getMixedC9 (by decide)

/-- C10: a percentage step value p resolves to the ceiling of p/100 times
total and an absolute value resolves to itself; in the Unknown state with ten
candidate clusters, no existing releases and StepInit 20 percent, the first
pass creates releases for exactly the first two clusters in sorted
namespace/name order, persists Count=2 and StepSize=2, and requeues. -/
theorem C10_theorem :
    (∀ p total : Int, getScaledValueFromIntOrPercent (some (.percentVal p)) total =
      .ok ⌈(((p * total : Int) : ℚ)) / 100⌉) ∧
    (∀ n total : Int, getScaledValueFromIntOrPercent (some (.intVal n)) total = .ok n) ∧
    (rolloutReconcile hcpC10 clustersTen [] .install).touched =
      [mkCluster "c00", mkCluster "c01"] ∧
    (rolloutReconcile hcpC10 clustersTen [] .install).rolloutStatus =
      some ⟨some 2, some 2⟩ ∧
    (rolloutReconcile hcpC10 clustersTen [] .install).result = .success true := by
  refine ⟨?_, ?_, by decide, by decide, by decide⟩
  · intro p total
    unfold getScaledValueFromIntOrPercent
    rw [ceil_div_hundred]
  · intro n total
    rfl

end CAAPH
